import Mathlib

/-!
Shallow embedding of the `bevy_assetio_zip` repository: the XOR byte
transform (`src/src/xor.rs`), the bundle locator and the resolving asset
source (`src/bevy_assetio_zip/src/lib.rs`), and the directory bundler
(`src/bevy_assetio_zip_bundler/src/lib.rs`).  Bytes are modelled as `Nat`
values, byte buffers as `List Nat`.
-/

namespace AssetBundle

/-- The `XOR_FACTOR` constant from `src/src/xor.rs`: `0b01010101 = 0x55 = 85`. -/
def XOR_FACTOR : Nat := 85

/-- XOR one byte with the fixed key, the per-byte operation from `src/src/xor.rs`. -/
def xorByte (b : Nat) : Nat := b ^^^ XOR_FACTOR

/-- XOR a whole buffer with the fixed key. -/
def xorBytes (bs : List Nat) : List Nat := bs.map xorByte

/-- Embedding of `Xor::<R>::read` (`src/src/xor.rs` lines 8-20).  The delegate
read has already happened: `buf` is the buffer content after the inner source
filled its first `count` bytes, and `count` is the byte count the delegate
returned.  The implementation then XORs every byte of `buf` (the loop
`for byte in buf` runs over the whole slice) and returns the delegate's count. -/
def Xor.read (buf : List Nat) (count : Nat) : List Nat × Nat :=
  (xorBytes buf, count)

/-- Embedding of `Xor::<W>::write` (`src/src/xor.rs` lines 22-31): XOR a copy
of the input buffer and hand it to the underlying sink, returning the sink's
result. -/
def Xor.write (sink : List Nat → Nat) (buf : List Nat) : Nat :=
  sink (xorBytes buf)

theorem xorByte_xorByte (b : Nat) : xorByte (xorByte b) = b := by
  simp [xorByte, Nat.xor_assoc]

theorem xorBytes_xorBytes (bs : List Nat) : xorBytes (xorBytes bs) = bs := by
  induction bs with
  | nil => rfl
  | cons b rest ih => simp only [xorBytes, List.map_cons] at ih ⊢
                      rw [xorByte_xorByte, ih]

theorem xorBytes_length (bs : List Nat) : (xorBytes bs).length = bs.length := by
  simp [xorBytes]

/-- C3: the byte transform is a self-inverse bijection: applying the XOR-0x55
transform twice to any byte sequence (hence to every byte value 0-255) yields
the original sequence; both directions use the identical operation `xorBytes`. -/
theorem c3_transform_involutive (bs : List Nat) : xorBytes (xorBytes bs) = bs :=
  xorBytes_xorBytes bs

/-- C4 counterexample: the claim states that `read` XORs only the first
`count` bytes of the buffer (the region the delegate returned) and no bytes
outside it.  At the concrete input `buf = [1, 7]`, `count = 1` (the delegate
filled one byte; the second byte `7` lies outside the returned region) the
code produces `([1 XOR 85, 7 XOR 85], 1) = ([84, 82], 1)` rather than the
claimed `([84, 7], 1)`: the byte outside the returned region is XORed too. -/
theorem c4_counterexample :
    Xor.read [1, 7] 1 = ([84, 82], 1) ∧
    Xor.read [1, 7] 1 ≠ (xorBytes ([1, 7].take 1) ++ [1, 7].drop 1, 1) := by
  constructor
  · rfl
  · decide

/-- C4 (amended): `read` returns exactly the byte count the delegate
returned, and XORs every byte of the whole buffer with the key 0x55 — both
the returned region and any bytes beyond it — preserving the buffer length. -/
theorem c4_read_xors_whole_buffer (buf : List Nat) (count : Nat) :
    (Xor.read buf count).2 = count ∧
    (Xor.read buf count).1.length = buf.length ∧
    ∀ i : Nat, (Xor.read buf count).1[i]? = (buf[i]?).map xorByte := by
  refine ⟨rfl, xorBytes_length buf, ?_⟩
  intro i
  simp [Xor.read, xorBytes]

/-! ## The archive container

Modelled from the spec: the archive container itself is the external `zip`
library (`zip::ZipWriter` / `zip::ZipArchive`), which is not part of `src/`.
Per spec section 4.3 the archive is an indexed collection of entries keyed by
a relative path string, each entry carrying a compression method and a
compressed payload with the property that a well-formed serialized archive
parses back to exactly the entries that were written, and a byte stream that
is not a well-formed archive fails to parse. -/

/-- The three compression methods accepted by the bundler
(`Compression` / `zip::CompressionMethod` in
`src/bevy_assetio_zip_bundler/src/lib.rs` lines 28-47). -/
inductive Method where
  | Stored
  | Deflated
  | Bzip2
  deriving DecidableEq

/-- The numeric tag each method is stored under (the zip method ids). -/
def methodTag : Method → Nat
  | .Stored => 0
  | .Deflated => 8
  | .Bzip2 => 12

/-- Modelled from the spec: the codec of the external zip library.  Each
method is an injective coding of the payload that its own `decompress`
inverts; a payload not produced by the matching method fails to decompress
(an I/O error while reading the entry). -/
def compress (m : Method) (bs : List Nat) : List Nat := methodTag m :: bs

/-- Modelled from the spec: inverse of `compress`; fails on a payload that
was not produced by the same method. -/
def decompress (m : Method) (bs : List Nat) : Option (List Nat) :=
  match bs with
  | [] => none
  | t :: rest => if t = methodTag m then some rest else none

/-- One archive entry: a name (relative path string), the compression method
recorded for it, and its stored (compressed) payload. -/
structure Entry where
  name : String
  method : Method
  payload : List Nat
  deriving DecidableEq

/-- Length-prefixed coding of a string as its character code points. -/
def encodeString (s : String) : List Nat := s.length :: s.data.map Char.toNat

/-- Length-prefixed coding of a raw byte block. -/
def encodeBlock (bs : List Nat) : List Nat := bs.length :: bs

/-- Serialization of one entry: name, method tag, payload block. -/
def encodeEntry (e : Entry) : List Nat :=
  encodeString e.name ++ methodTag e.method :: encodeBlock e.payload

/-- Modelled from the spec: serialization of a whole archive (what
`zip::ZipWriter` commits to its sink): a two-byte magic, the entry count and
the entries in order. -/
def serializeArchive (es : List Entry) : List Nat :=
  80 :: 75 :: es.length :: (es.map encodeEntry).flatten

def parseMethod (t : Nat) : Option Method :=
  if t = 0 then some .Stored
  else if t = 8 then some .Deflated
  else if t = 12 then some .Bzip2
  else none

def parseString (bs : List Nat) : Option (String × List Nat) :=
  match bs with
  | [] => none
  | len :: rest =>
    if len ≤ rest.length then
      some (String.mk ((rest.take len).map Char.ofNat), rest.drop len)
    else none

def parseBlock (bs : List Nat) : Option (List Nat × List Nat) :=
  match bs with
  | [] => none
  | len :: rest =>
    if len ≤ rest.length then some (rest.take len, rest.drop len) else none

def parseEntry (bs : List Nat) : Option (Entry × List Nat) :=
  match parseString bs with
  | none => none
  | some (nm, r1) =>
    match r1 with
    | [] => none
    | t :: r2 =>
      match parseMethod t with
      | none => none
      | some m =>
        match parseBlock r2 with
        | none => none
        | some (pl, r3) => some (⟨nm, m, pl⟩, r3)

def parseEntries : Nat → List Nat → Option (List Entry)
  | 0, [] => some []
  | 0, _ :: _ => none
  | n + 1, bs =>
    match parseEntry bs with
    | none => none
    | some (e, rest) =>
      match parseEntries n rest with
      | none => none
      | some es => some (e :: es)

/-- Modelled from the spec: `zip::ZipArchive::new` — parse a byte stream as
an archive; returns `none` exactly when the stream is not a well-formed
archive (wrong magic, truncated data, bad central directory). -/
def parseArchive (bs : List Nat) : Option (List Entry) :=
  match bs with
  | a :: b :: n :: rest =>
    if a = 80 then if b = 75 then parseEntries n rest else none else none
  | _ => none

theorem decompress_compress (m : Method) (bs : List Nat) :
    decompress m (compress m bs) = some bs := by
  simp [compress, decompress]

theorem parseMethod_methodTag (m : Method) : parseMethod (methodTag m) = some m := by
  cases m <;> rfl

theorem parseString_encodeString (s : String) (r : List Nat) :
    parseString (encodeString s ++ r) = some (s, r) := by
  have hlen : s.length = (s.data.map Char.toNat).length := by
    rw [List.length_map]
    rfl
  simp only [encodeString, List.cons_append, parseString]
  rw [hlen, if_pos (by simp), List.take_left, List.drop_left, List.map_map]
  have hmap : s.data.map (Char.ofNat ∘ Char.toNat) = s.data := by
    have h1 : ∀ c ∈ s.data, (Char.ofNat ∘ Char.toNat) c = id c := fun c _ =>
      Char.ofNat_toNat c
    rw [List.map_congr_left h1, List.map_id]
  rw [hmap]

theorem parseBlock_encodeBlock (bs r : List Nat) :
    parseBlock (encodeBlock bs ++ r) = some (bs, r) := by
  simp only [encodeBlock, List.cons_append, parseBlock]
  rw [if_pos (by simp), List.take_left, List.drop_left]

theorem parseEntry_encodeEntry (e : Entry) (r : List Nat) :
    parseEntry (encodeEntry e ++ r) = some (e, r) := by
  simp only [encodeEntry, List.append_assoc, List.cons_append]
  rw [parseEntry, parseString_encodeString]
  simp only []
  rw [parseMethod_methodTag]
  simp only []
  rw [parseBlock_encodeBlock]

theorem parseEntries_encode (es : List Entry) :
    parseEntries es.length (es.map encodeEntry).flatten = some es := by
  induction es with
  | nil => rfl
  | cons e rest ih =>
    simp only [List.map_cons, List.flatten_cons, List.length_cons, parseEntries,
      parseEntry_encodeEntry, ih]

theorem parseArchive_serializeArchive (es : List Entry) :
    parseArchive (serializeArchive es) = some es := by
  simp only [serializeArchive, parseArchive, if_pos rfl]
  exact parseEntries_encode es

/-! ## Bundle locator and resolving asset source
(`src/bevy_assetio_zip/src/lib.rs`). -/

/-- The search location next to the executable, abstracted to the two files
the locator looks at: the contents of `{file_name}.bin` and of
`{file_name}.zip`, each `none` when the file does not exist. -/
structure DiskFS where
  binFile : Option (List Nat)
  zipFile : Option (List Nat)
  deriving DecidableEq

/-- The located bundle: the chosen file's bytes and its obfuscation flag
(the `(path, obfuscate)` pair of `AssetIoZip::bundle`, lines 190-201). -/
structure Candidate where
  contents : List Nat
  obfuscated : Bool
  deriving DecidableEq

/-- The candidate-selection step of `AssetIoZip::bundle`
(`src/bevy_assetio_zip/src/lib.rs` lines 190-201): `.bin` if it exists, else
`.zip` if it exists, else none. -/
def locateBundle (fs : DiskFS) : Option Candidate :=
  match fs.binFile with
  | some bytes => some ⟨bytes, true⟩
  | none =>
    match fs.zipFile with
    | some bytes => some ⟨bytes, false⟩
    | none => none

/-- `AssetIoZip::bundle` (`src/bevy_assetio_zip/src/lib.rs` lines 183-211):
locate the bundle file; wrap the reader in the XOR transform when the `.bin`
candidate was chosen; open it as a zip archive.  `ZipArchive::new(..).ok()?`
turns an archive parse failure into `None`. -/
def bundle (fs : DiskFS) : Option (List Entry) :=
  match locateBundle fs with
  | none => none
  | some c =>
    parseArchive (if c.obfuscated then xorBytes c.contents else c.contents)

/-- A request path as the resolver receives it: `repr` is the result of
`path.to_str()` — `none` for a path that is not representable as unicode. -/
structure RPath where
  repr : Option String
  deriving DecidableEq

/-- An asset I/O error surfaced to the caller of `load_path` (the
`AssetIoError::Io` case raised by the `?` on `read_to_end`). -/
inductive AssetIoError where
  | io (msg : String)
  deriving DecidableEq

/-- The external fallback asset source (`fallback_io: Box<dyn AssetIo>`):
an opaque capability with the five operations the resolver forwards to. -/
structure Fallback where
  load : RPath → Except AssetIoError (List Nat)
  readDir : RPath → Except AssetIoError (List String)
  isDir : RPath → Bool
  watchPath : RPath → Except AssetIoError Unit
  watchAll : Except AssetIoError Unit

/-- The resolving asset source: the fallback it wraps.  (The `config`
field's `file_name` is abstracted into `DiskFS`, which already stands for
the two files `{file_name}.bin` / `{file_name}.zip`.) -/
structure AssetIoZip where
  fallback : Fallback

/-- Result of an operation that can also terminate the process by a failed
`expect` (a Rust panic). -/
inductive Outcome (α : Type) where
  | panicked (msg : String)
  | ret (a : α)
  deriving DecidableEq

/-- Modelled from the spec: `ZipArchive::by_name` of the external zip
library — exact lookup of an entry by its stored name string. -/
def by_name (es : List Entry) (nm : String) : Option Entry :=
  es.find? (fun e => e.name == nm)

/-- Reading a found entry to the end (`read_to_end` through the entry's
decompressor): fails when the stored payload does not decompress with the
entry's recorded method. -/
def readEntry (e : Entry) : Except String (List Nat) :=
  match decompress e.method e.payload with
  | some bs => .ok bs
  | none => .error "io error reading entry"

/-- `AssetIoZip::load_path` (`src/bevy_assetio_zip/src/lib.rs` lines
215-237).  If a bundle opens: evaluate `path.to_str().expect("non-unicode
filename")` (panic on a non-unicode path), look the name up, and on a hit
read the entry (an I/O error propagates via `?`); on a miss, or when no
bundle opens at all, forward to the fallback source. -/
def load_path (z : AssetIoZip) (fs : DiskFS) (p : RPath) :
    Outcome (Except AssetIoError (List Nat)) :=
  match bundle fs with
  | some es =>
    match p.repr with
    | none => .panicked "non-unicode filename"
    | some s =>
      match by_name es s with
      | some e =>
        match readEntry e with
        | .ok buf => .ret (.ok buf)
        | .error msg => .ret (.error (.io msg))
      | none => .ret (z.fallback.load p)
  | none => .ret (z.fallback.load p)

/-- `AssetIoZip::read_directory` (lines 239-244): unconditional delegation
to the fallback.  The `DiskFS` argument records that the method has access
to the bundle state but ignores it. -/
def read_directory (z : AssetIoZip) (_fs : DiskFS) (p : RPath) :
    Except AssetIoError (List String) :=
  z.fallback.readDir p

/-- `AssetIoZip::is_directory` (lines 246-248): unconditional delegation. -/
def is_directory (z : AssetIoZip) (_fs : DiskFS) (p : RPath) : Bool :=
  z.fallback.isDir p

/-- `AssetIoZip::watch_path_for_changes` (lines 250-254): unconditional
delegation. -/
def watch_path_for_changes (z : AssetIoZip) (_fs : DiskFS) (p : RPath) :
    Except AssetIoError Unit :=
  z.fallback.watchPath p

/-- `AssetIoZip::watch_for_changes` (lines 256-260): unconditional
delegation. -/
def watch_for_changes (z : AssetIoZip) (_fs : DiskFS) :
    Except AssetIoError Unit :=
  z.fallback.watchAll

/-! ## The directory bundler
(`src/bevy_assetio_zip_bundler/src/lib.rs`). -/

/-- A source directory tree: regular files with byte contents, directories
with children. -/
inductive FsTree where
  | file (name : String) (contents : List Nat)
  | dir (name : String) (children : List FsTree)

/-- Join a relative-path prefix with a component name. -/
def joinPath (pfx n : String) : String :=
  if pfx = "" then n else pfx ++ "/" ++ n

mutual

/-- The `WalkDir` traversal of `zip_dir`: each visited entry paired with its
path relative to the source dir — `some contents` for a regular file, `none`
for a directory.  A directory is visited before its children. -/
def walkTree (pfx : String) : FsTree → List (String × Option (List Nat))
  | .file n c => [(joinPath pfx n, some c)]
  | .dir n cs => (joinPath pfx n, none) :: walkForest (joinPath pfx n) cs

def walkForest (pfx : String) : List FsTree → List (String × Option (List Nat))
  | [] => []
  | t :: ts => walkTree pfx t ++ walkForest pfx ts

end

/-- The walk rooted at the source directory itself: `WalkDir::new(source_dir)`
yields the root first, whose path relative to `source_dir` is empty. -/
def walkRoot : FsTree → List (String × Option (List Nat))
  | .file _ c => [("", some c)]
  | .dir _ cs => ("", none) :: walkForest "" cs

/-- The entry-writing loop of `zip_dir` (lines 147-168): a regular file
becomes a file entry under its relative path with the requested compression;
a directory with a non-empty relative name becomes an explicit directory
marker entry (stored name with a trailing slash, empty contents); the root
directory (empty name) is skipped. -/
def bundleEntries (m : Method) : List (String × Option (List Nat)) → List Entry
  | [] => []
  | (n, some c) :: rest => ⟨n, m, compress m c⟩ :: bundleEntries m rest
  | (n, none) :: rest =>
    if n = "" then bundleEntries m rest
    else ⟨n ++ "/", m, compress m []⟩ :: bundleEntries m rest

/-- `zip_dir` (`src/bevy_assetio_zip_bundler/src/lib.rs` lines 127-171): walk
the source tree, write every entry into a zip archive, and — when `obfuscate`
is set — pass every written byte through the XOR transform before it reaches
disk.  Returns the bytes of the produced bundle file. -/
def zip_dir (tree : FsTree) (compression : Method) (obfuscate : Bool) :
    List Nat :=
  let ser := serializeArchive (bundleEntries compression (walkRoot tree))
  if obfuscate then xorBytes ser else ser

/-- Deployment of the produced bundle next to the executable: the bundler
names the output `{file_name}.bin` when obfuscating and `{file_name}.zip`
otherwise (`bundle_crate_assets`, line 93). -/
def installBundle (obfuscate : Bool) (bytes : List Nat) : DiskFS :=
  if obfuscate then { binFile := some bytes, zipFile := none }
  else { binFile := none, zipFile := some bytes }

/-- Scan the walk output in archive order for the first item whose stored
archive name is `p` (a directory marker is stored under its name plus a
trailing slash; the root is skipped): `some c` when that item is a regular
file with contents `c`, `none` otherwise. -/
def firstFileAt (ws : List (String × Option (List Nat))) (p : String) :
    Option (List Nat) :=
  match ws with
  | [] => none
  | (n, some c) :: rest => if n = p then some c else firstFileAt rest p
  | (n, none) :: rest =>
    if n = "" then firstFileAt rest p
    else if n ++ "/" = p then none else firstFileAt rest p

/-! ## Helper lemmas and concrete collaborators -/

/-- A concrete fallback source whose `load` always answers `bs`. -/
def constFallback (bs : List Nat) : Fallback where
  load := fun _ => .ok bs
  readDir := fun _ => .ok []
  isDir := fun _ => false
  watchPath := fun _ => .ok ()
  watchAll := .ok ()

/-- The first archive entry stored under name `p` is the file entry the walk
put there: compressed `c` under method `m`. -/
theorem by_name_bundleEntries (m : Method) (p : String) (c : List Nat) :
    ∀ ws, firstFileAt ws p = some c →
      by_name (bundleEntries m ws) p = some ⟨p, m, compress m c⟩
  | [], h => by simp [firstFileAt] at h
  | (n, some cc) :: rest, h => by
    rw [firstFileAt] at h
    by_cases hn : n = p
    · rw [if_pos hn] at h
      injection h with hc
      subst hn hc
      rw [bundleEntries, by_name, List.find?_cons_of_pos]
      simp
    · rw [if_neg hn] at h
      rw [bundleEntries, by_name, List.find?_cons_of_neg]
      · exact by_name_bundleEntries m p c rest h
      · simp [hn]
  | (n, none) :: rest, h => by
    rw [firstFileAt] at h
    by_cases h0 : n = ""
    · rw [if_pos h0] at h
      rw [bundleEntries, if_pos h0]
      exact by_name_bundleEntries m p c rest h
    · rw [if_neg h0] at h
      by_cases hs : n ++ "/" = p
      · rw [if_pos hs] at h
        exact absurd h (by simp)
      · rw [if_neg hs] at h
        rw [bundleEntries, if_neg h0, by_name, List.find?_cons_of_neg]
        · exact by_name_bundleEntries m p c rest h
        · simp [hs]

/-! ## The claims -/

/-- C1: bundler-resolver round-trip.  For every source directory tree, every
compression method and either obfuscation mode, bundling with `zip_dir` and
installing the produced file in the search location, then loading the
relative path of any regular file of the tree (`firstFileAt` picks it out of
the deterministic walk), returns exactly that file's original bytes. -/
theorem c1_bundler_resolver_round_trip (tree : FsTree) (m : Method) (o : Bool)
    (fb : Fallback) (p : String) (c : List Nat)
    (hfile : firstFileAt (walkRoot tree) p = some c) :
    load_path ⟨fb⟩ (installBundle o (zip_dir tree m o)) ⟨some p⟩ =
      Outcome.ret (Except.ok c) := by
  have hby := by_name_bundleEntries m p c (walkRoot tree) hfile
  have hparse := parseArchive_serializeArchive (bundleEntries m (walkRoot tree))
  have hbundle : bundle (installBundle o (zip_dir tree m o)) =
      some (bundleEntries m (walkRoot tree)) := by
    cases o with
    | false => simp [bundle, locateBundle, installBundle, zip_dir, hparse]
    | true =>
      simp [bundle, locateBundle, installBundle, zip_dir, xorBytes_xorBytes, hparse]
  simp [load_path, hbundle, hby, readEntry, decompress_compress]

/-- C1 witness: a concrete tree with `a.txt`, `sub/b.txt` and the empty
directory `sub2`, bundled obfuscated with Bzip2; loading `sub/b.txt` returns
its original bytes. -/
theorem c1_bundler_resolver_round_trip_witness :
    load_path ⟨constFallback []⟩
      (installBundle true (zip_dir (FsTree.dir "assets"
        [FsTree.file "a.txt" [10, 20],
         FsTree.dir "sub" [FsTree.file "b.txt" [30]],
         FsTree.dir "sub2" []]) Method.Bzip2 true))
      ⟨some "sub/b.txt"⟩ = Outcome.ret (Except.ok [30]) :=
  c1_bundler_resolver_round_trip _ Method.Bzip2 true (constFallback [])
    "sub/b.txt" [30] (by decide)

/-- C2 counterexample: a `.bin` bundle file exists with contents `[0]`, which
is not a well-formed archive (`parseArchive` of its de-obfuscated bytes is
`none`).  The claim says `load` surfaces the open/parse error and does not
fall back; instead `load_path` returns exactly the fallback's answer for the
path, behaving as if the bundle were missing. -/
theorem c2_counterexample :
    locateBundle ⟨some [0], none⟩ = some ⟨[0], true⟩ ∧
    parseArchive (xorBytes [0]) = none ∧
    load_path ⟨constFallback [1, 2, 3]⟩ ⟨some [0], none⟩ ⟨some "a.txt"⟩ =
      Outcome.ret ((constFallback [1, 2, 3]).load ⟨some "a.txt"⟩) :=
  ⟨rfl, rfl, rfl⟩

/-- C2 (amended): a bundle file that exists but fails to parse as an archive
is treated exactly like an absent bundle: `load_path` forwards the request to
the fallback source unchanged, and no open/parse error reaches the caller
(`ZipArchive::new(..).ok()?` discards it). -/
theorem c2_malformed_bundle_falls_back (z : AssetIoZip) (fs : DiskFS)
    (p : RPath) (cand : Candidate)
    (hloc : locateBundle fs = some cand)
    (hparse : parseArchive
      (if cand.obfuscated then xorBytes cand.contents else cand.contents) = none) :
    load_path z fs p = Outcome.ret (z.fallback.load p) := by
  simp [load_path, bundle, hloc, hparse]

/-- C2 amended-claim witness at a concrete malformed `.bin` file. -/
theorem c2_malformed_bundle_falls_back_witness :
    load_path ⟨constFallback [4]⟩ ⟨some [0], none⟩ ⟨some "x"⟩ =
      Outcome.ret (Except.ok [4]) :=
  c2_malformed_bundle_falls_back ⟨constFallback [4]⟩ ⟨some [0], none⟩
    ⟨some "x"⟩ ⟨[0], true⟩ rfl rfl

/-- C5: bundle location precedence.  When both `{base}.bin` and `{base}.zip`
exist the locator returns the `.bin` candidate with the obfuscated flag set
and the resolver parses the `.bin` bytes (de-obfuscated); the `.zip`
candidate is chosen only when `.bin` is absent; when both are absent the
locator returns `none` rather than an error. -/
theorem c5_bundle_precedence (fs : DiskFS) :
    (∀ b zc, fs.binFile = some b → fs.zipFile = some zc →
      locateBundle fs = some ⟨b, true⟩ ∧ bundle fs = parseArchive (xorBytes b)) ∧
    (∀ zc, fs.binFile = none → fs.zipFile = some zc →
      locateBundle fs = some ⟨zc, false⟩ ∧ bundle fs = parseArchive zc) ∧
    (fs.binFile = none → fs.zipFile = none →
      locateBundle fs = none ∧ bundle fs = none) := by
  refine ⟨?_, ?_, ?_⟩
  · intro b zc hb _
    exact ⟨by simp [locateBundle, hb], by simp [bundle, locateBundle, hb]⟩
  · intro zc hb hz
    exact ⟨by simp [locateBundle, hb, hz], by simp [bundle, locateBundle, hb, hz]⟩
  · intro hb hz
    exact ⟨by simp [locateBundle, hb, hz], by simp [bundle, locateBundle, hb, hz]⟩

/-- C5 witness: with both files present the `.bin` contents win. -/
theorem c5_bundle_precedence_witness :
    locateBundle ⟨some [1, 2], some [3]⟩ = some ⟨[1, 2], true⟩ ∧
    bundle ⟨some [1, 2], some [3]⟩ = parseArchive (xorBytes [1, 2]) :=
  (c5_bundle_precedence ⟨some [1, 2], some [3]⟩).1 [1, 2] [3] rfl rfl

/-- C6: fallback exactness.  With no bundle file present, or with an opened
bundle lacking an entry for the requested (decodable) path, `load_path`
returns exactly the fallback source's `load` result for that path, whatever
it is (success or error). -/
theorem c6_fallback_exactness (z : AssetIoZip) (fs : DiskFS) (p : RPath) :
    (fs.binFile = none → fs.zipFile = none →
      load_path z fs p = Outcome.ret (z.fallback.load p)) ∧
    (∀ es s, bundle fs = some es → p.repr = some s → by_name es s = none →
      load_path z fs p = Outcome.ret (z.fallback.load p)) := by
  constructor
  · intro hb hz
    simp [load_path, bundle, locateBundle, hb, hz]
  · intro es s hbund hp hname
    simp [load_path, hbund, hp, hname]

/-- C6 witness: a valid one-entry bundle lacking the requested path `y`;
`load_path` answers with the fallback's bytes. -/
theorem c6_fallback_exactness_witness :
    load_path ⟨constFallback [5, 6]⟩
      ⟨none, some (serializeArchive
        [⟨"x", Method.Stored, compress Method.Stored [1]⟩])⟩
      ⟨some "y"⟩ = Outcome.ret (Except.ok [5, 6]) :=
  (c6_fallback_exactness ⟨constFallback [5, 6]⟩
      ⟨none, some (serializeArchive
        [⟨"x", Method.Stored, compress Method.Stored [1]⟩])⟩ ⟨some "y"⟩).2
    [⟨"x", Method.Stored, compress Method.Stored [1]⟩] "y" (by rfl) rfl (by rfl)

/-- C7: an I/O error while reading a confirmed entry is surfaced as a read
failure (`AssetIoError.io`); the result does not depend on the fallback
source at all — `load_path` never falls back once the entry was found. -/
theorem c7_read_error_surfaced (fs : DiskFS) (p : RPath) (es : List Entry)
    (s : String) (e : Entry) (msg : String)
    (hbund : bundle fs = some es) (hp : p.repr = some s)
    (hfind : by_name es s = some e) (hread : readEntry e = .error msg) :
    ∀ z : AssetIoZip,
      load_path z fs p = Outcome.ret (Except.error (AssetIoError.io msg)) := by
  intro z
  simp [load_path, hbund, hp, hfind, hread]

/-- C7 witness: a bundle whose single entry has a payload its recorded
method cannot decompress; loading it returns the read error, not the
fallback's bytes. -/
theorem c7_read_error_surfaced_witness :
    load_path ⟨constFallback [0]⟩
      ⟨none, some (serializeArchive [⟨"bad", Method.Stored, [99, 1]⟩])⟩
      ⟨some "bad"⟩ =
      Outcome.ret (Except.error (AssetIoError.io "io error reading entry")) :=
  c7_read_error_surfaced
    ⟨none, some (serializeArchive [⟨"bad", Method.Stored, [99, 1]⟩])⟩
    ⟨some "bad"⟩ [⟨"bad", Method.Stored, [99, 1]⟩] "bad"
    ⟨"bad", Method.Stored, [99, 1]⟩ "io error reading entry"
    (by rfl) rfl (by rfl) (by rfl) ⟨constFallback [0]⟩

/-- C8: for every path and every state of the bundle file (present, absent
or malformed — any `DiskFS` whatsoever), `read_directory`, `is_directory`,
`watch_path_for_changes` and `watch_for_changes` return exactly the fallback
source's result; none of them consults the archive. -/
theorem c8_queries_always_delegate (z : AssetIoZip) (fs : DiskFS) (p : RPath) :
    read_directory z fs p = z.fallback.readDir p ∧
    is_directory z fs p = z.fallback.isDir p ∧
    watch_path_for_changes z fs p = z.fallback.watchPath p ∧
    watch_for_changes z fs = z.fallback.watchAll :=
  ⟨rfl, rfl, rfl, rfl⟩

/-- C9 counterexample: with no bundle file present, a request path that does
not decode as unicode does NOT panic — `load_path` forwards it to the
fallback source and returns the fallback's answer (`.ret`, not
`.panicked`), contradicting the claim that a non-decodable path always
fails fast and never triggers fallback. -/
theorem c9_counterexample :
    load_path ⟨constFallback [7]⟩ ⟨none, none⟩ ⟨none⟩ =
      Outcome.ret ((constFallback [7]).load ⟨none⟩) ∧
    load_path ⟨constFallback [7]⟩ ⟨none, none⟩ ⟨none⟩ ≠
      Outcome.panicked "non-unicode filename" :=
  ⟨rfl, fun h => nomatch h⟩

/-- C9 (amended): the non-unicode panic happens only after a bundle has been
located and opened: with an opened bundle a non-decodable path panics before
entry lookup and before any fallback delegation; with no bundle available
the path — decodable or not — is forwarded to the fallback without panic;
and a path that decodes cleanly never reaches the panic branch. -/
theorem c9_panic_requires_open_bundle (z : AssetIoZip) (fs : DiskFS) (p : RPath) :
    (∀ es, bundle fs = some es → p.repr = none →
      load_path z fs p = Outcome.panicked "non-unicode filename") ∧
    (bundle fs = none → load_path z fs p = Outcome.ret (z.fallback.load p)) ∧
    (∀ s, p.repr = some s → ∀ msg, load_path z fs p ≠ Outcome.panicked msg) := by
  refine ⟨?_, ?_, ?_⟩
  · intro es hb hp
    simp [load_path, hb, hp]
  · intro hb
    simp [load_path, hb]
  · intro s hp msg
    cases hbund : bundle fs with
    | none => simp [load_path, hbund]
    | some es =>
      simp only [load_path, hbund, hp]
      cases hname : by_name es s with
      | none => simp
      | some e =>
        cases hread : readEntry e with
        | ok buf => simp [hread]
        | error m2 => simp [hread]

/-- C9 amended-claim witness: an opened (empty) bundle plus a non-decodable
path panics with the `expect` message. -/
theorem c9_panic_requires_open_bundle_witness :
    load_path ⟨constFallback [8]⟩ ⟨none, some (serializeArchive [])⟩ ⟨none⟩ =
      Outcome.panicked "non-unicode filename" :=
  (c9_panic_requires_open_bundle ⟨constFallback [8]⟩
      ⟨none, some (serializeArchive [])⟩ ⟨none⟩).1 [] (by rfl) rfl

/-- C10: no path normalization.  With an opened bundle, the archive serves
the request exactly when some stored entry name equals the unicode form of
the request path character-for-character; otherwise (including a path
differing only by a leading `./` or separator style) the request goes to the
fallback source.  On a hit the served result is determined by the entry
alone. -/
theorem c10_exact_name_match (z : AssetIoZip) (fs : DiskFS) (p : RPath)
    (es : List Entry) (s : String)
    (hbund : bundle fs = some es) (hp : p.repr = some s) :
    ((by_name es s).isSome = true ↔ ∃ e ∈ es, e.name = s) ∧
    (by_name es s = none → load_path z fs p = Outcome.ret (z.fallback.load p)) ∧
    (∀ e, by_name es s = some e →
      load_path z fs p = Outcome.ret (match readEntry e with
        | .ok buf => Except.ok buf
        | .error msg => Except.error (AssetIoError.io msg))) := by
  refine ⟨?_, ?_, ?_⟩
  · simp [by_name, List.find?_isSome]
  · intro hname
    simp [load_path, hbund, hp, hname]
  · intro e hname
    cases hread : readEntry e with
    | ok buf => simp [load_path, hbund, hp, hname, hread]
    | error msg => simp [load_path, hbund, hp, hname, hread]

/-- C10 witness: the bundle stores `a.txt`; the request `./a.txt` (same file
up to a leading `./`) is a miss and is answered by the fallback source. -/
theorem c10_exact_name_match_witness :
    load_path ⟨constFallback [42]⟩
      ⟨none, some (serializeArchive
        [⟨"a.txt", Method.Stored, compress Method.Stored [9]⟩])⟩
      ⟨some "./a.txt"⟩ = Outcome.ret (Except.ok [42]) :=
  (c10_exact_name_match ⟨constFallback [42]⟩
      ⟨none, some (serializeArchive
        [⟨"a.txt", Method.Stored, compress Method.Stored [9]⟩])⟩
      ⟨some "./a.txt"⟩
      [⟨"a.txt", Method.Stored, compress Method.Stored [9]⟩] "./a.txt"
      (by rfl) rfl).2.1 (by rfl)

end AssetBundle
